import Mathlib

/-!
Shallow embedding of the vendor-bidding platform backend
(Express route handlers over a relational store), restricted to the
authorization-scoped data-access and notification layer.

Sources embedded (line references are to the repository files):
* bid routes: `src/unnamed/part_002` (Supabase version) and the Prisma
  version concatenated into
  `apps/backend/src/routes/notification.routes.ts`; the two versions are
  behaviourally identical at this level of abstraction and are embedded
  once.
* project routes: `apps/backend/src/routes/project.routes.ts`
* property routes: `apps/backend/src/routes/property.routes.ts`
* message routes: `apps/backend/src/routes/message.routes.ts`
* notification routes: `apps/backend/src/routes/notification.routes.ts`
* document routes: `apps/backend/src/routes/document.routes.ts`

Database tables become lists of rows; SQL `UPDATE ... WHERE` becomes a
`List.map` guarded by the `WHERE` condition; `.single()` lookups become
`List.find?`.  Side effects relevant to the claims (notification row
inserts, socket emits, object-store puts/removes) are additionally
recorded in an ordered effect trace.  Row ids are drawn from a counter
(`nextId`) standing in for database-generated keys.
-/

namespace VendorBidding

/-- User roles, from `types/supabase.ts`: `UserRole`. -/
inductive Role where
  | propertyManager
  | vendor
  | admin
deriving DecidableEq, Repr

/-- Project statuses, from `types/supabase.ts`: `ProjectStatus`. -/
inductive ProjectStatus where
  | DRAFT
  | OPEN
  | IN_REVIEW
  | AWARDED
  | IN_PROGRESS
  | COMPLETED
  | CANCELLED
deriving DecidableEq, Repr

/-- Bid statuses, from `types/supabase.ts`: `BidStatus`. -/
inductive BidStatus where
  | PENDING
  | ACCEPTED
  | REJECTED
  | WITHDRAWN
deriving DecidableEq, Repr

/-- A `properties` row (fields relevant to authorization). -/
structure Property where
  id : Nat
  managerId : Nat
deriving DecidableEq, Repr

/-- A `projects` row (fields relevant to the claims). -/
structure Project where
  id : Nat
  propertyId : Nat
  managerId : Nat
  title : String
  status : ProjectStatus
deriving DecidableEq, Repr

/-- A `bids` row (fields relevant to the claims). -/
structure Bid where
  id : Nat
  projectId : Nat
  vendorId : Nat
  amount : Int
  status : BidStatus
deriving DecidableEq, Repr

/-- A `notifications` row.  User display names are not modelled, so the
human-readable `message` text is abbreviated; no claim inspects it. -/
structure Notification where
  id : Nat
  userId : Nat
  title : String
  message : String
  type : String
  link : String
  read : Bool
deriving DecidableEq, Repr

/-- A `messages` row.  The state keeps messages in creation
(`created_at` ascending) order: sends append at the end. -/
structure Message where
  id : Nat
  senderId : Nat
  receiverId : Nat
  content : String
  read : Bool
deriving DecidableEq, Repr

/-- A `documents` row (metadata record; the payload lives in the object
store, keyed by `storagePath`). -/
structure Document where
  id : Nat
  projectId : Option Nat
  bidId : Option Nat
  uploadedBy : Nat
  storagePath : String
deriving DecidableEq, Repr

/-- The persistent store: one list per table, the set of object-store
locators holding a payload, and a fresh-id counter standing in for
database-generated keys. -/
structure St where
  users : List Nat
  properties : List Property
  projects : List Project
  bids : List Bid
  notifications : List Notification
  messages : List Message
  documents : List Document
  storage : List String
  nextId : Nat
deriving DecidableEq, Repr

/-- The initial empty store. -/
def initSt : St :=
  { users := [], properties := [], projects := [], bids := [],
    notifications := [], messages := [], documents := [], storage := [],
    nextId := 1 }

/-- Distinguishable failure outcomes of the handlers, one constructor per
distinct error response in the source (HTTP status and message noted). -/
inductive Err where
  | invalidStatus               -- 400 "Invalid status"
  | bidNotFound                 -- 404 "Bid not found"
  | projectNotFound             -- 404 "Project not found"
  | notificationNotFound        -- 404 "Notification not found"
  | receiverNotFound            -- 404 "Receiver not found"
  | accessDenied                -- 403 "Access denied"
  | bidNotFoundOrAccessDenied   -- 404 "Bid not found or access denied"
  | projectNotFoundOrAccessDenied   -- 404 "Project not found or access denied"
  | propertyNotFoundOrAccessDenied  -- 403 "Property not found or access denied"
  | projectNotAcceptingBids     -- 400 "Project is not accepting bids"
  | alreadySubmittedBid         -- 400 "You have already submitted a bid for this project"
  | cannotUpdateNonPending      -- 400 "Cannot update bid with status: ..."
  | canOnlyWithdrawPending      -- 400 "Can only withdraw pending bids"
  | fileAssociationRequired     -- 400 "Either projectId or bidId is required"
  | accessDeniedProject         -- 403 "Access denied to this project"
  | accessDeniedBid             -- 403 "Access denied to this bid"
  | failedToUploadFile          -- 500 "Failed to upload file"
  | failedToCreateDocument      -- 500 "Failed to create document record"
  | serverError                 -- 500 (exception caught by the catch block)
deriving DecidableEq, Repr

/-- Modelled from the spec: the error taxonomy of spec section 7 classifies
"state-machine precondition violated — e.g., double bid submission,
accepting an already-decided bid, accepting into a no-longer-open
project" as ConflictError.  This classifier maps the source's concrete
error responses into that spec-side class, for comparison only. -/
def specConflictError : Err → Prop
  | .projectNotAcceptingBids => True
  | .alreadySubmittedBid => True
  | _ => False

/-- Side effects recorded in order of occurrence. -/
inductive Effect where
  | persistNotification (userId : Nat) (type : String)
  | pushNotification (userId : Nat) (type : String)
  | pushMessage (userId : Nat)
  | storePut (locator : String)
  | storeRemove (locator : String)
deriving DecidableEq, Repr

/-- `.single()` / `findUnique` lookup of a project by id. -/
def lookupProject (st : St) (id : Nat) : Option Project :=
  st.projects.find? fun p => p.id == id

/-- `.single()` / `findUnique` lookup of a bid by id. -/
def lookupBid (st : St) (id : Nat) : Option Bid :=
  st.bids.find? fun b => b.id == id

/-- `.single()` / `findUnique` lookup of a notification by id. -/
def lookupNotification (st : St) (id : Nat) : Option Notification :=
  st.notifications.find? fun n => n.id == id

/-- Result of evaluating to a success. -/
def isOk : Except Err α → Bool
  | .ok _ => true
  | .error _ => false

/-- POST /api/auth/register (`auth.routes.ts`): inserts a `users` row.
Only the user id is relevant to the embedded handlers. -/
def registerUser (st : St) (userId : Nat) : St :=
  { st with users := st.users ++ [userId] }

/-- POST /api/properties (`property.routes.ts`, create property):
inserts a `properties` row owned by the caller. -/
def createProperty (st : St) (userId : Nat) : Property × St :=
  let prop : Property := { id := st.nextId, managerId := userId }
  (prop,
   { st with properties := st.properties ++ [prop], nextId := st.nextId + 1 })

/-- POST /api/projects (`project.routes.ts`, create project): verifies
the property belongs to the caller, then inserts a `projects` row.
The handler passes no `status` column, so the row takes the database
default.  Modelled from the spec: the schema holding that default is not
under `src/`; spec section 3 lists Draft first among the statuses, so the
default is taken as Draft here.  No claim depends on this choice: the
one place a fresh project's status matters (the C2 operation sequence)
sets it explicitly through `updateProject`. -/
def createProject (st : St) (userId propertyId : Nat) (title : String) :
    Except Err Project × St :=
  match st.properties.find? (fun p => p.id == propertyId && p.managerId == userId) with
  | none => (.error .propertyNotFoundOrAccessDenied, st)
  | some _ =>
    let proj : Project :=
      { id := st.nextId, propertyId := propertyId, managerId := userId,
        title := title, status := .DRAFT }
    (.ok proj,
     { st with projects := st.projects ++ [proj], nextId := st.nextId + 1 })

/-- PUT /api/projects/:id (`project.routes.ts`, update project): finds
the project owned by the caller, then applies the provided fields; a
provided `status` is written through unchecked (`...(status && { status })`).
Only the status field is modelled; the other updatable columns do not
appear in any claim. -/
def updateProject (st : St) (userId projectId : Nat)
    (status? : Option ProjectStatus) : Except Err Project × St :=
  match st.projects.find? (fun p => p.id == projectId && p.managerId == userId) with
  | none => (.error .projectNotFoundOrAccessDenied, st)
  | some p =>
    let upd : Project → Project := fun q =>
      if q.id = projectId then { q with status := status?.getD q.status } else q
    (.ok (upd p), { st with projects := st.projects.map upd })

/-- GET /api/projects/:id (`project.routes.ts`, single project): 404 when
the id does not resolve; a PROPERTY_MANAGER caller is rejected unless
they manage the project; no other role check exists in the handler. -/
def getProject (st : St) (userId : Nat) (role : Role) (projectId : Nat) :
    Except Err Project :=
  match lookupProject st projectId with
  | none => .error .projectNotFound
  | some p =>
    if role = .propertyManager ∧ p.managerId ≠ userId then .error .accessDenied
    else .ok p

/-- POST /api/bids (create bid; Supabase version in
`src/unnamed/part_002` lines 133-228, Prisma version in
`notification.routes.ts` lines 284-374).  After validation: 404 when the
project id does not resolve; 400 when the project is not OPEN; 400 when
the caller already has a bid on the project (any status); otherwise
inserts a PENDING bid (the status column takes the database default,
Pending per spec section 4.2 — the schema is not under `src/`), inserts a
`bid_received` notification row for the project's manager, and then
emits the matching socket event. -/
def createBid (st : St) (userId projectId : Nat) (amount : Int) :
    Except Err Bid × St × List Effect :=
  match lookupProject st projectId with
  | none => (.error .projectNotFound, st, [])
  | some project =>
    if project.status ≠ .OPEN then (.error .projectNotAcceptingBids, st, [])
    else
      match st.bids.find? (fun b => b.projectId == projectId && b.vendorId == userId) with
      | some _ => (.error .alreadySubmittedBid, st, [])
      | none =>
        let bid : Bid :=
          { id := st.nextId, projectId := projectId, vendorId := userId,
            amount := amount, status := .PENDING }
        let notif : Notification :=
          { id := st.nextId + 1, userId := project.managerId,
            title := "New Bid Received",
            message := "A vendor submitted a bid for " ++ project.title,
            type := "bid_received", link := "/projects/" ++ toString projectId,
            read := false }
        (.ok bid,
         { st with bids := st.bids ++ [bid],
                   notifications := st.notifications ++ [notif],
                   nextId := st.nextId + 2 },
         [.persistNotification project.managerId "bid_received",
          .pushNotification project.managerId "bid_received"])

/-- PUT /api/bids/:id (vendor update bid): finds the bid owned by the
caller, refuses unless its status is PENDING, then updates the editable
columns (modelled by `amount`); the status column is never written. -/
def updateBid (st : St) (userId bidId : Nat) (amount : Int) :
    Except Err Bid × St × List Effect :=
  match st.bids.find? (fun b => b.id == bidId && b.vendorId == userId) with
  | none => (.error .bidNotFoundOrAccessDenied, st, [])
  | some existing =>
    if existing.status ≠ .PENDING then (.error .cannotUpdateNonPending, st, [])
    else
      let upd : Bid → Bid := fun b =>
        if b.id = bidId then { b with amount := amount } else b
      (.ok (upd existing), { st with bids := st.bids.map upd }, [])

/-- PATCH /api/bids/:id/status (accept/reject; Supabase version in
`src/unnamed/part_002` lines 289-381, Prisma version in
`notification.routes.ts` lines 431-522).  400 unless the requested
status is ACCEPTED or REJECTED; 404 when the bid id does not resolve;
500 when the joined project row is missing (the handler dereferences it
and the exception is caught); 403 unless the caller manages the bid's
project.  It then writes the requested status to the bid — with no check
of the bid's current status and no check of the project's status — and,
when accepting, sets the project to AWARDED and moves every other
still-PENDING bid of the project to REJECTED.  Finally it inserts a
notification row for the bid's vendor and emits the matching event. -/
def updateBidStatus (st : St) (userId bidId : Nat) (status : BidStatus) :
    Except Err Bid × St × List Effect :=
  if status ≠ .ACCEPTED ∧ status ≠ .REJECTED then (.error .invalidStatus, st, [])
  else
    match lookupBid st bidId with
    | none => (.error .bidNotFound, st, [])
    | some bid =>
      match lookupProject st bid.projectId with
      | none => (.error .serverError, st, [])
      | some project =>
        if project.managerId ≠ userId then (.error .accessDenied, st, [])
        else
          let bids1 := st.bids.map fun b =>
            if b.id = bidId then { b with status := status } else b
          let st2 : St :=
            if status = .ACCEPTED then
              { st with
                projects := st.projects.map fun p =>
                  if p.id = bid.projectId then { p with status := .AWARDED } else p,
                bids := bids1.map fun b =>
                  if b.projectId = bid.projectId ∧ b.id ≠ bidId ∧ b.status = .PENDING
                  then { b with status := .REJECTED } else b }
            else { st with bids := bids1 }
          let ntype := if status = .ACCEPTED then "bid_accepted" else "bid_rejected"
          let notif : Notification :=
            { id := st.nextId, userId := bid.vendorId,
              title := if status = .ACCEPTED then "Bid Accepted!" else "Bid Update",
              message := "Your bid for " ++ project.title ++ " has been " ++
                (if status = .ACCEPTED then "accepted" else "rejected"),
              type := ntype, link := "/bids/" ++ toString bidId, read := false }
          (.ok { bid with status := status },
           { st2 with notifications := st2.notifications ++ [notif],
                      nextId := st.nextId + 1 },
           [.persistNotification bid.vendorId ntype,
            .pushNotification bid.vendorId ntype])

/-- DELETE /api/bids/:id (withdraw bid): finds the bid owned by the
caller, refuses unless its status is PENDING, then sets it WITHDRAWN. -/
def withdrawBid (st : St) (userId bidId : Nat) :
    Except Err Unit × St × List Effect :=
  match st.bids.find? (fun b => b.id == bidId && b.vendorId == userId) with
  | none => (.error .bidNotFoundOrAccessDenied, st, [])
  | some bid =>
    if bid.status ≠ .PENDING then (.error .canOnlyWithdrawPending, st, [])
    else
      (.ok (),
       { st with bids := st.bids.map fun b =>
           if b.id = bidId then { b with status := .WITHDRAWN } else b },
       [])

/-- GET /api/messages/with/:userId (`message.routes.ts` lines 62-96):
fetches the two-way thread with the counterpart in chronological order,
then marks every message from the counterpart to the caller with
`read = false` as read.  The response is the rows as fetched, i.e. as
they were before the mark-read update. -/
def getMessagesWith (st : St) (currentUserId otherUserId : Nat) :
    List Message × St :=
  let thread := st.messages.filter fun m =>
    decide ((m.senderId = currentUserId ∧ m.receiverId = otherUserId) ∨
            (m.senderId = otherUserId ∧ m.receiverId = currentUserId))
  (thread,
   { st with messages := st.messages.map fun m =>
       if m.senderId = otherUserId ∧ m.receiverId = currentUserId ∧ m.read = false
       then { m with read := true } else m })

/-- POST /api/messages (`message.routes.ts` lines 99-184): 404 when the
receiver does not exist; otherwise inserts the message, inserts a
`message` notification row for the receiver, and only then emits the
`message` event and the `notification` event to the receiver. -/
def sendMessage (st : St) (senderId receiverId : Nat) (content : String) :
    Except Err Message × St × List Effect :=
  if st.users.find? (fun u => u == receiverId) = none
  then (.error .receiverNotFound, st, [])
  else
    let msg : Message :=
      { id := st.nextId, senderId := senderId, receiverId := receiverId,
        content := content, read := false }
    let notif : Notification :=
      { id := st.nextId + 1, userId := receiverId, title := "New Message",
        message := "sent you a message", type := "message",
        link := "/messages/" ++ toString senderId, read := false }
    (.ok msg,
     { st with messages := st.messages ++ [msg],
               notifications := st.notifications ++ [notif],
               nextId := st.nextId + 2 },
     [.persistNotification receiverId "message",
      .pushMessage receiverId,
      .pushNotification receiverId "message"])

/-- PATCH /api/notifications/:id/read (`notification.routes.ts` lines
62-98): 404 when the id does not resolve; 403 when the caller is not the
recipient; otherwise sets the row's read flag. -/
def markNotificationRead (st : St) (userId notifId : Nat) :
    Except Err Notification × St × List Effect :=
  match lookupNotification st notifId with
  | none => (.error .notificationNotFound, st, [])
  | some n =>
    if n.userId ≠ userId then (.error .accessDenied, st, [])
    else
      (.ok { n with read := true },
       { st with notifications := st.notifications.map fun m =>
           if m.id = notifId then { m with read := true } else m },
       [])

/-- DELETE /api/notifications/:id (`notification.routes.ts` lines
124-158): 404 when the id does not resolve; 403 when the caller is not
the recipient; otherwise deletes the row. -/
def deleteNotification (st : St) (userId notifId : Nat) :
    Except Err Unit × St × List Effect :=
  match lookupNotification st notifId with
  | none => (.error .notificationNotFound, st, [])
  | some n =>
    if n.userId ≠ userId then (.error .accessDenied, st, [])
    else
      (.ok (),
       { st with notifications := st.notifications.filter fun m => m.id != notifId },
       [])

/-- The object-store locator generated for an upload
(`document.routes.ts` lines 76-83); the random file name is passed in as
`fileName`. -/
def storagePathFor (userId : Nat) (projectId? bidId? : Option Nat)
    (fileName : String) : String :=
  match projectId? with
  | some pid => toString userId ++ "/projects/" ++ toString pid ++ "/" ++ fileName
  | none =>
    toString userId ++ "/bids/" ++ toString (bidId?.getD 0) ++ "/" ++ fileName

/-- POST /api/documents/upload (`document.routes.ts` lines 37-131):
400 when neither association is given; 403 when a given project is not
managed by the caller, or a given bid is not the caller's; then the
payload is stored at a fresh locator (`upsert: false`, so a clash is a
storage error); then the metadata row is inserted — `dbFails` selects
the branch where that insert fails, in which case the stored payload is
removed again before the error response. -/
def uploadStorePhase (st : St) (userId : Nat) (projectId? bidId? : Option Nat)
    (fileName : String) (dbFails : Bool) :
    Except Err Document × St × List Effect :=
  let path := storagePathFor userId projectId? bidId? fileName
  if path ∈ st.storage then (.error .failedToUploadFile, st, [])
  else
    let stored := st.storage ++ [path]
    if dbFails then
      (.error .failedToCreateDocument,
       { st with storage := stored.filter fun l => l != path },
       [.storePut path, .storeRemove path])
    else
      let doc : Document :=
        { id := st.nextId, projectId := projectId?, bidId := bidId?,
          uploadedBy := userId, storagePath := path }
      (.ok doc,
       { st with storage := stored,
                 documents := st.documents ++ [doc],
                 nextId := st.nextId + 1 },
       [.storePut path])

/-- The per-association authorization checks of the upload handler
(`document.routes.ts` lines 46-74): at least one of project/bid must be
given; a given project must be managed by the caller; a given bid must
be the caller's. -/
def uploadDocument (st : St) (userId : Nat) (projectId? bidId? : Option Nat)
    (fileName : String) (dbFails : Bool) :
    Except Err Document × St × List Effect :=
  if projectId? = none ∧ bidId? = none then (.error .fileAssociationRequired, st, [])
  else
    let projectCheck : Bool :=
      match projectId? with
      | none => true
      | some pid =>
        match lookupProject st pid with
        | none => false
        | some p => p.managerId == userId
    let bidCheck : Bool :=
      match bidId? with
      | none => true
      | some bid =>
        match lookupBid st bid with
        | none => false
        | some b => b.vendorId == userId
    if projectCheck = false then (.error .accessDeniedProject, st, [])
    else if bidCheck = false then (.error .accessDeniedBid, st, [])
    else uploadStorePhase st userId projectId? bidId? fileName dbFails

/-- One API operation, carrying the authenticated caller's id and the
request data.  Role middleware (`authorize(...)`) restricts which users
may issue which operation; it does not affect the state semantics, so
roles appear here only where a handler reads them. -/
inductive Op where
  | register (userId : Nat)
  | createProperty (userId : Nat)
  | createProject (userId propertyId : Nat) (title : String)
  | updateProject (userId projectId : Nat) (status? : Option ProjectStatus)
  | createBid (userId projectId : Nat) (amount : Int)
  | updateBid (userId bidId : Nat) (amount : Int)
  | updateBidStatus (userId bidId : Nat) (status : BidStatus)
  | withdrawBid (userId bidId : Nat)
  | readThread (userId otherUserId : Nat)
  | sendMessage (senderId receiverId : Nat) (content : String)
  | markNotificationRead (userId notifId : Nat)
  | deleteNotification (userId notifId : Nat)
  | uploadDocument (userId : Nat) (projectId? bidId? : Option Nat)
      (fileName : String) (dbFails : Bool)
deriving DecidableEq, Repr

/-- The state reached by one operation (responses and effect traces
dropped). -/
def applyOp (st : St) : Op → St
  | .register u => registerUser st u
  | .createProperty u => (createProperty st u).2
  | .createProject u p t => (createProject st u p t).2
  | .updateProject u p s => (updateProject st u p s).2
  | .createBid u p a => (createBid st u p a).2.1
  | .updateBid u b a => (updateBid st u b a).2.1
  | .updateBidStatus u b s => (updateBidStatus st u b s).2.1
  | .withdrawBid u b => (withdrawBid st u b).2.1
  | .readThread u o => (getMessagesWith st u o).2
  | .sendMessage s r c => (sendMessage st s r c).2.1
  | .markNotificationRead u n => (markNotificationRead st u n).2.1
  | .deleteNotification u n => (deleteNotification st u n).2.1
  | .uploadDocument u p b f d => (uploadDocument st u p b f d).2.1

/-- The state reached by a sequence of operations. -/
def runOps (st : St) : List Op → St
  | [] => st
  | op :: rest => runOps (applyOp st op) rest

/-- A state is reachable when some operation sequence produces it from
the initial empty store. -/
def Reachable (st : St) : Prop :=
  ∃ ops : List Op, runOps initSt ops = st

/-- The ACCEPTED bids a project currently has. -/
def projectAcceptedCount (st : St) (projectId : Nat) : Nat :=
  (st.bids.filter fun b =>
    b.projectId == projectId && decide (b.status = BidStatus.ACCEPTED)).length

/-- Whether the prefix `seen` already carries a persisted notification
row for recipient `u` with type tag `t`. -/
def hasPersist (u : Nat) (t : String) : List Effect → Bool
  | [] => false
  | .persistNotification v s :: rest => (v == u && s == t) || hasPersist u t rest
  | _ :: rest => hasPersist u t rest

/-- Scans an effect trace left to right and checks that every
notification push is preceded by the matching persisted row. -/
def pushesAfterPersists (seen : List Effect) : List Effect → Bool
  | [] => true
  | e :: rest =>
    (match e with
     | .pushNotification u t => hasPersist u t seen
     | _ => true) && pushesAfterPersists (seen ++ [e]) rest

/-- A stored notification row for recipient `u` with type tag `t`
exists. -/
def hasStoredNotification (st : St) (u : Nat) (t : String) : Bool :=
  st.notifications.any fun n => n.userId == u && n.type == t

/-! Concrete stores and operation sequences used by counterexamples and
witnesses.  Ids: users are 1 (a manager), 2, 3, 5, 7 (vendors); rows get
ids from the `nextId` counter or are written literally. -/

/-- Operation sequence: manager 1 opens a project, vendors 2 and 3 bid,
manager 1 accepts vendor 2's bid (project becomes AWARDED, vendor 3's
bid auto-REJECTED), then manager 1 accepts vendor 3's bid as well.  Row
ids assigned by the counter: property 1, project 2, bid 3, bid 5. -/
def opsC2 : List Op :=
  [ .createProperty 1,
    .createProject 1 1 "Roof",
    .updateProject 1 2 (some .OPEN),
    .createBid 2 2 5000,
    .createBid 3 2 4500,
    .updateBidStatus 1 3 .ACCEPTED,
    .updateBidStatus 1 5 .ACCEPTED ]

/-- A store whose only bid (id 2, on project 1) is already WITHDRAWN. -/
def stWithdrawn : St :=
  { initSt with
    projects := [{ id := 1, propertyId := 10, managerId := 1, title := "P",
                   status := .OPEN }],
    bids := [{ id := 2, projectId := 1, vendorId := 5, amount := 100,
               status := .WITHDRAWN }],
    nextId := 3 }

/-- A store whose only bid (id 2, on project 1) is already ACCEPTED and
whose project is already AWARDED. -/
def stAccepted : St :=
  { initSt with
    projects := [{ id := 1, propertyId := 10, managerId := 1, title := "P",
                   status := .AWARDED }],
    bids := [{ id := 2, projectId := 1, vendorId := 5, amount := 100,
               status := .ACCEPTED }],
    nextId := 3 }

/-- A store with one DRAFT project and no bids at all. -/
def stDraft : St :=
  { initSt with
    projects := [{ id := 1, propertyId := 10, managerId := 1, title := "P",
                   status := .DRAFT }],
    nextId := 2 }

/-- A store with one OPEN project (id 1, manager 1) and one PENDING bid
(id 2) by vendor 5, plus a WITHDRAWN bid (id 3) by vendor 7. -/
def stOpenBids : St :=
  { initSt with
    projects := [{ id := 1, propertyId := 10, managerId := 1, title := "P",
                   status := .OPEN }],
    bids := [{ id := 2, projectId := 1, vendorId := 5, amount := 100,
               status := .PENDING },
             { id := 3, projectId := 1, vendorId := 7, amount := 90,
               status := .WITHDRAWN }],
    nextId := 4 }

/-- A store with a single unread message from user 3 to user 2. -/
def stOneMessage : St :=
  { initSt with
    messages := [{ id := 1, senderId := 3, receiverId := 2, content := "hi",
                   read := false }],
    nextId := 2 }

/-- A store with one notification (id 1) addressed to user 2. -/
def stOneNotification : St :=
  { initSt with
    notifications := [{ id := 1, userId := 2, title := "t", message := "m",
                        type := "bid_received", link := "", read := false }],
    nextId := 2 }

/-- A store with user 2 registered, used to exercise `sendMessage`. -/
def stUsers : St :=
  { initSt with users := [2], nextId := 1 }

/-! General list lemmas about key-preserving row updates. -/

theorem find?_map_of_pres {α : Type*} (l : List α) (f : α → α) (p : α → Bool)
    (hf : ∀ a, p (f a) = p a) : (l.map f).find? p = (l.find? p).map f := by
  induction l with
  | nil => rfl
  | cons a l ih =>
    by_cases h : p a = true
    · rw [List.map_cons, List.find?_cons_of_pos _ (by rw [hf a]; exact h),
        List.find?_cons_of_pos _ h, Option.map_some']
    · rw [List.map_cons,
        List.find?_cons_of_neg _ (by rw [hf a]; simpa using h),
        List.find?_cons_of_neg _ (by simpa using h), ih]

theorem filter_map_of_pres {α : Type*} (l : List α) (f : α → α) (p : α → Bool)
    (hf : ∀ a, p (f a) = p a) : (l.map f).filter p = (l.filter p).map f := by
  induction l with
  | nil => rfl
  | cons a l ih =>
    simp only [List.map_cons, List.filter_cons, hf a]
    cases h : p a <;> simp [ih]

theorem countP_congr_mem {α : Type*} (l : List α) (p q : α → Bool)
    (h : ∀ a ∈ l, p a = q a) : l.countP p = l.countP q := by
  induction l with
  | nil => rfl
  | cons a l ih =>
    rw [List.countP_cons, List.countP_cons, h a (List.mem_cons_self a l),
      ih fun b hb => h b (List.mem_cons_of_mem a hb)]

theorem map_idem_of_pointwise {α : Type*} (l : List α) (g : α → α)
    (hg : ∀ a, g (g a) = g a) : (l.map g).map g = l.map g := by
  rw [List.map_map]
  exact List.map_congr_left fun a _ => hg a

/-- Success case of the accept handler, written out: with the bid and
its project resolved and the caller managing that project, the handler
accepts the bid (whatever its current status), awards the project,
auto-rejects the remaining PENDING bids of the project, and appends the
vendor notification. -/
theorem updateBidStatus_accept_eq (st : St) (mgr bidId : Nat) (b₀ : Bid) (p₀ : Project)
    (hb : lookupBid st bidId = some b₀)
    (hp : lookupProject st b₀.projectId = some p₀)
    (hm : p₀.managerId = mgr) :
    updateBidStatus st mgr bidId .ACCEPTED =
      (.ok { b₀ with status := .ACCEPTED },
       { st with
         projects := st.projects.map fun p =>
           if p.id = b₀.projectId then { p with status := .AWARDED } else p,
         bids := (st.bids.map fun b =>
             if b.id = bidId then { b with status := BidStatus.ACCEPTED } else b).map
           fun b =>
             if b.projectId = b₀.projectId ∧ b.id ≠ bidId ∧ b.status = .PENDING
             then { b with status := .REJECTED } else b,
         notifications := st.notifications ++
           [{ id := st.nextId, userId := b₀.vendorId, title := "Bid Accepted!",
              message := "Your bid for " ++ p₀.title ++ " has been " ++ "accepted",
              type := "bid_accepted", link := "/bids/" ++ toString bidId,
              read := false }],
         nextId := st.nextId + 1 },
       [.persistNotification b₀.vendorId "bid_accepted",
        .pushNotification b₀.vendorId "bid_accepted"]) := by
  unfold updateBidStatus
  rw [hb]
  dsimp only
  rw [hp]
  dsimp only
  simp [hm]

/-- C1.  Counterexample to the claim as stated.  In `stWithdrawn`,
bid 2 on project 1 is already WITHDRAWN; manager 1's accept of bid 2
nevertheless succeeds (the handler has no Pending precondition), and
bid 2's status changes from WITHDRAWN to ACCEPTED — so it is a Bid on P
that was already Withdrawn and does not have the same status as before,
contradicting the claim's final clause. -/
theorem accept_withdrawn_bid_changes_it :
    isOk (updateBidStatus stWithdrawn 1 2 .ACCEPTED).1 = true ∧
    lookupBid stWithdrawn 2 =
      some { id := 2, projectId := 1, vendorId := 5, amount := 100,
             status := .WITHDRAWN } ∧
    lookupBid (updateBidStatus stWithdrawn 1 2 .ACCEPTED).2.1 2 =
      some { id := 2, projectId := 1, vendorId := 5, amount := 100,
             status := .ACCEPTED } := by
  refine ⟨rfl, rfl, rfl⟩

/-- C1 (amended: the unchanged-status clause holds for every bid on P
other than B — B itself need not have been Pending and does change).
After a successful accept of bid B: B's status is ACCEPTED, B's project
is AWARDED, every other bid of the project that was PENDING is REJECTED,
and every other bid that was WITHDRAWN or REJECTED is unchanged. -/
theorem bid_accept_cascade (st : St) (mgr bidId : Nat) (b₀ : Bid) (p₀ : Project)
    (hb : lookupBid st bidId = some b₀)
    (hp : lookupProject st b₀.projectId = some p₀)
    (hm : p₀.managerId = mgr) :
    (updateBidStatus st mgr bidId .ACCEPTED).1 = .ok { b₀ with status := .ACCEPTED } ∧
    lookupBid (updateBidStatus st mgr bidId .ACCEPTED).2.1 bidId =
      some { b₀ with status := .ACCEPTED } ∧
    lookupProject (updateBidStatus st mgr bidId .ACCEPTED).2.1 b₀.projectId =
      some { p₀ with status := .AWARDED } ∧
    (∀ b ∈ st.bids, b.id ≠ bidId → b.projectId = b₀.projectId →
       b.status = .PENDING →
       { b with status := .REJECTED } ∈ (updateBidStatus st mgr bidId .ACCEPTED).2.1.bids) ∧
    (∀ b ∈ st.bids, b.id ≠ bidId →
       (b.status = .WITHDRAWN ∨ b.status = .REJECTED) →
       b ∈ (updateBidStatus st mgr bidId .ACCEPTED).2.1.bids) := by
  have hbid : b₀.id = bidId := by
    have := List.find?_some hb
    simpa using this
  have hpid : p₀.id = b₀.projectId := by
    have := List.find?_some hp
    simpa using this
  have hkey₁ : ∀ b : Bid,
      ((if b.id = bidId then { b with status := BidStatus.ACCEPTED } else b).id == bidId) =
        (b.id == bidId) := fun b => by split <;> rfl
  have hkey₂ : ∀ b : Bid,
      ((if b.projectId = b₀.projectId ∧ b.id ≠ bidId ∧ b.status = BidStatus.PENDING
          then { b with status := BidStatus.REJECTED } else b).id == bidId) =
        (b.id == bidId) := fun b => by split <;> rfl
  have hkeyP : ∀ p : Project,
      ((if p.id = b₀.projectId then { p with status := ProjectStatus.AWARDED } else p).id ==
          b₀.projectId) = (p.id == b₀.projectId) := fun p => by split <;> rfl
  rw [updateBidStatus_accept_eq st mgr bidId b₀ p₀ hb hp hm]
  refine ⟨rfl, ?_, ?_, ?_, ?_⟩
  · unfold lookupBid
    dsimp only
    rw [find?_map_of_pres _ _ _ hkey₂, find?_map_of_pres _ _ _ hkey₁]
    unfold lookupBid at hb
    rw [hb]
    simp [hbid]
  · unfold lookupProject
    dsimp only
    rw [find?_map_of_pres _ _ _ hkeyP]
    unfold lookupProject at hp
    rw [hp]
    simp [hpid]
  · intro b hbmem hne hproj hpend
    have h1 : (fun b => if b.projectId = b₀.projectId ∧ b.id ≠ bidId ∧ b.status = .PENDING
        then { b with status := BidStatus.REJECTED } else b)
        ((fun b => if b.id = bidId then { b with status := BidStatus.ACCEPTED } else b) b) =
        { b with status := BidStatus.REJECTED } := by
      simp [hne, hproj, hpend]
    exact h1 ▸ List.mem_map_of_mem _ (List.mem_map_of_mem _ hbmem)
  · intro b hbmem hne hterm
    have h1 : (fun b => if b.projectId = b₀.projectId ∧ b.id ≠ bidId ∧ b.status = .PENDING
        then { b with status := BidStatus.REJECTED } else b)
        ((fun b => if b.id = bidId then { b with status := BidStatus.ACCEPTED } else b) b) =
        b := by
      rcases hterm with h | h <;> simp [hne, h]
    exact h1 ▸ List.mem_map_of_mem _ (List.mem_map_of_mem _ hbmem)

/-- C1 witness: the cascade theorem applied in `stOpenBids`, where
manager 1 accepts PENDING bid 2; the WITHDRAWN sibling bid 3 is
unchanged. -/
theorem bid_accept_cascade_witness :
    (updateBidStatus stOpenBids 1 2 .ACCEPTED).1 =
      .ok { id := 2, projectId := 1, vendorId := 5, amount := 100,
            status := .ACCEPTED } ∧
    lookupProject (updateBidStatus stOpenBids 1 2 .ACCEPTED).2.1 1 =
      some { id := 1, propertyId := 10, managerId := 1, title := "P",
             status := .AWARDED } ∧
    ({ id := 3, projectId := 1, vendorId := 7, amount := 90,
       status := .WITHDRAWN } : Bid) ∈
      (updateBidStatus stOpenBids 1 2 .ACCEPTED).2.1.bids := by
  have h := bid_accept_cascade stOpenBids 1 2
    { id := 2, projectId := 1, vendorId := 5, amount := 100, status := .PENDING }
    { id := 1, propertyId := 10, managerId := 1, title := "P", status := .OPEN }
    rfl rfl rfl
  exact ⟨h.1, h.2.2.1, h.2.2.2.2 _ (by decide) (by decide) (Or.inl rfl)⟩

/-- C2.  Counterexample to the claim as stated.  Running `opsC2` from
the empty store: after its first six operations the project (id 2) is
AWARDED — no longer Open — yet the seventh operation, manager 1's
acceptance of vendor 3's bid (id 5, auto-REJECTED by the first accept),
succeeds instead of failing with a conflict, and the reached state has
two ACCEPTED bids on the project.  Every state named here is produced by
`runOps` from `initSt`, so it is reachable. -/
theorem second_accept_succeeds_reachable :
    (lookupProject (runOps initSt (opsC2.take 6)) 2).map Project.status =
      some .AWARDED ∧
    isOk (updateBidStatus (runOps initSt (opsC2.take 6)) 1 5 .ACCEPTED).1 = true ∧
    projectAcceptedCount (runOps initSt opsC2) 2 = 2 := by
  refine ⟨rfl, rfl, rfl⟩

/-- C2 (amended: the handler checks neither the project's status nor the
bid's, so the at-most-one-ACCEPTED invariant is not maintained once a
project already has an ACCEPTED bid; what does hold is that accepting a
bid on a project with no ACCEPTED bid leaves that project with exactly
one).  Bid ids are assumed distinct, as the database primary key
guarantees. -/
theorem accept_unique_accepted (st : St) (mgr bidId : Nat) (b₀ : Bid) (p₀ : Project)
    (hnd : (st.bids.map Bid.id).Nodup)
    (hb : lookupBid st bidId = some b₀)
    (hp : lookupProject st b₀.projectId = some p₀)
    (hm : p₀.managerId = mgr)
    (hnone : ∀ b ∈ st.bids, b.projectId = b₀.projectId → b.status ≠ .ACCEPTED) :
    projectAcceptedCount (updateBidStatus st mgr bidId .ACCEPTED).2.1 b₀.projectId = 1 := by
  have hbid : b₀.id = bidId := by
    have h := hb
    unfold lookupBid at h
    simpa using List.find?_some h
  have hmem : b₀ ∈ st.bids := by
    have h := hb
    unfold lookupBid at h
    exact List.mem_of_find?_eq_some h
  rw [updateBidStatus_accept_eq st mgr bidId b₀ p₀ hb hp hm]
  unfold projectAcceptedCount
  dsimp only
  rw [← List.countP_eq_length_filter, List.countP_map, List.countP_map]
  have hpt : ∀ b ∈ st.bids,
      (((fun b : Bid => b.projectId == b₀.projectId &&
            decide (b.status = BidStatus.ACCEPTED)) ∘
          fun b : Bid =>
            if b.projectId = b₀.projectId ∧ b.id ≠ bidId ∧ b.status = BidStatus.PENDING
            then { b with status := BidStatus.REJECTED } else b) ∘
        fun b : Bid =>
          if b.id = bidId then { b with status := BidStatus.ACCEPTED } else b) b =
      (b.id == bidId) := by
    intro b hbmem
    by_cases hid : b.id = bidId
    · have hbb : b = b₀ :=
        List.inj_on_of_nodup_map hnd hbmem hmem (by rw [hid, hbid])
      subst hbb
      simp [hid]
    · have h2 : (b.id == bidId) = false := beq_eq_false_iff_ne.mpr hid
      by_cases hpr : b.projectId = b₀.projectId
      · by_cases hpend : b.status = BidStatus.PENDING
        · simp [Function.comp, hid, hpr, hpend, h2]
        · simp [Function.comp, hid, hpr, hpend, h2, hnone b hbmem hpr]
      · have h3 : (b.projectId == b₀.projectId) = false := beq_eq_false_iff_ne.mpr hpr
        simp [Function.comp, hid, hpr, h2, h3]
  rw [countP_congr_mem _ _ _ hpt]
  have hcnt : st.bids.countP (fun b => b.id == bidId) =
      (st.bids.map Bid.id).count bidId := by
    rw [List.count, List.countP_map]
    rfl
  rw [hcnt]
  exact List.count_eq_one_of_mem (by exact hnd)
    (by exact hbid ▸ List.mem_map_of_mem Bid.id hmem)

/-- C2 witness: in `stOpenBids` no bid is ACCEPTED; manager 1's accept
of bid 2 leaves project 1 with exactly one ACCEPTED bid. -/
theorem accept_unique_accepted_witness :
    projectAcceptedCount (updateBidStatus stOpenBids 1 2 .ACCEPTED).2.1 1 = 1 :=
  accept_unique_accepted stOpenBids 1 2
    { id := 2, projectId := 1, vendorId := 5, amount := 100, status := .PENDING }
    { id := 1, propertyId := 10, managerId := 1, title := "P", status := .OPEN }
    (by decide) rfl rfl rfl (by decide)

/-- Helper: the vendor bid-update handler leaves every bid in a terminal
(non-PENDING) status untouched; its PENDING guard plus primary-key
uniqueness of bid ids rule the row out as the update target. -/
theorem updateBid_preserves_terminal (st : St) (uid bidId : Nat) (amt : Int)
    (hnd : (st.bids.map Bid.id).Nodup) (i : Nat) (hi : i < st.bids.length)
    (hterm : st.bids[i].status ≠ BidStatus.PENDING) :
    (updateBid st uid bidId amt).2.1.bids[i]? = some st.bids[i] := by
  unfold updateBid
  cases hfind : st.bids.find? (fun b => b.id == bidId && b.vendorId == uid) with
  | none => exact List.getElem?_eq_getElem hi
  | some ex =>
    dsimp only
    by_cases hst : ex.status ≠ BidStatus.PENDING
    · rw [if_pos hst]
      exact List.getElem?_eq_getElem hi
    · rw [if_neg hst]
      push_neg at hst
      have hexmem : ex ∈ st.bids := List.mem_of_find?_eq_some hfind
      have hexid : ex.id = bidId := by
        have h := List.find?_some hfind
        simp only [Bool.and_eq_true, beq_iff_eq] at h
        exact h.1
      have hne : st.bids[i].id ≠ bidId := by
        intro h
        have hmem : st.bids[i] ∈ st.bids := List.getElem_mem hi
        have heq : st.bids[i] = ex :=
          List.inj_on_of_nodup_map hnd hmem hexmem (by rw [h, hexid])
        exact hterm (by rw [heq, hst])
      rw [List.getElem?_map, List.getElem?_eq_getElem hi, Option.map_some']
      rw [if_neg hne]

/-- Helper: the withdraw handler leaves every bid in a terminal status
untouched, by the same argument as the update handler. -/
theorem withdrawBid_preserves_terminal (st : St) (uid bidId : Nat)
    (hnd : (st.bids.map Bid.id).Nodup) (i : Nat) (hi : i < st.bids.length)
    (hterm : st.bids[i].status ≠ BidStatus.PENDING) :
    (withdrawBid st uid bidId).2.1.bids[i]? = some st.bids[i] := by
  unfold withdrawBid
  cases hfind : st.bids.find? (fun b => b.id == bidId && b.vendorId == uid) with
  | none => exact List.getElem?_eq_getElem hi
  | some ex =>
    dsimp only
    by_cases hst : ex.status ≠ BidStatus.PENDING
    · rw [if_pos hst]
      exact List.getElem?_eq_getElem hi
    · rw [if_neg hst]
      push_neg at hst
      have hexmem : ex ∈ st.bids := List.mem_of_find?_eq_some hfind
      have hexid : ex.id = bidId := by
        have h := List.find?_some hfind
        simp only [Bool.and_eq_true, beq_iff_eq] at h
        exact h.1
      have hne : st.bids[i].id ≠ bidId := by
        intro h
        have hmem : st.bids[i] ∈ st.bids := List.getElem_mem hi
        have heq : st.bids[i] = ex :=
          List.inj_on_of_nodup_map hnd hmem hexmem (by rw [h, hexid])
        exact hterm (by rw [heq, hst])
      rw [List.getElem?_map, List.getElem?_eq_getElem hi, Option.map_some']
      rw [if_neg hne]

/-- Helper: bid creation never modifies an existing bid row. -/
theorem createBid_preserves_existing (st : St) (uid pid : Nat) (amt : Int)
    (i : Nat) (hi : i < st.bids.length) :
    (createBid st uid pid amt).2.1.bids[i]? = some st.bids[i] := by
  unfold createBid
  cases hp : lookupProject st pid with
  | none => exact List.getElem?_eq_getElem hi
  | some project =>
    dsimp only
    by_cases hop : project.status ≠ ProjectStatus.OPEN
    · rw [if_pos hop]
      exact List.getElem?_eq_getElem hi
    · rw [if_neg hop]
      cases hfind : st.bids.find? (fun b => b.projectId == pid && b.vendorId == uid) with
      | some ex => exact List.getElem?_eq_getElem hi
      | none =>
        dsimp only
        rw [List.getElem?_append, if_pos hi]
        exact List.getElem?_eq_getElem hi

/-- Helper: the accept/reject handler leaves every bid other than the
target untouched when that bid is not PENDING: the auto-rejection
cascade only moves PENDING bids. -/
theorem updateBidStatus_preserves_nontarget_nonpending (st : St)
    (uid bidId : Nat) (s : BidStatus) (i : Nat) (hi : i < st.bids.length)
    (hne : st.bids[i].id ≠ bidId) (hterm : st.bids[i].status ≠ BidStatus.PENDING) :
    (updateBidStatus st uid bidId s).2.1.bids[i]? = some st.bids[i] := by
  unfold updateBidStatus
  by_cases hs : s ≠ BidStatus.ACCEPTED ∧ s ≠ BidStatus.REJECTED
  · rw [if_pos hs]
    exact List.getElem?_eq_getElem hi
  · rw [if_neg hs]
    cases hlb : lookupBid st bidId with
    | none => exact List.getElem?_eq_getElem hi
    | some bid =>
      dsimp only
      cases hlp : lookupProject st bid.projectId with
      | none => exact List.getElem?_eq_getElem hi
      | some project =>
        dsimp only
        by_cases hmg : project.managerId ≠ uid
        · rw [if_pos hmg]
          exact List.getElem?_eq_getElem hi
        · rw [if_neg hmg]
          dsimp only
          by_cases hacc : s = BidStatus.ACCEPTED
          · rw [if_pos hacc]
            dsimp only
            rw [List.getElem?_map, List.getElem?_map, List.getElem?_eq_getElem hi,
              Option.map_some', Option.map_some']
            rw [if_neg hne]
            rw [if_neg (fun h => hterm h.2.2)]
          · rw [if_neg hacc]
            dsimp only
            rw [List.getElem?_map, List.getElem?_eq_getElem hi, Option.map_some']
            rw [if_neg hne]

/-- C3.  Counterexample to the claim as stated.  In `stAccepted`, bid 2
is ACCEPTED — a terminal state — yet manager 1's reject succeeds and
moves it to REJECTED: the accept/reject handler has no Pending
precondition, so a transition out of a terminal state exists. -/
theorem reject_accepted_bid_changes_it :
    isOk (updateBidStatus stAccepted 1 2 .REJECTED).1 = true ∧
    lookupBid stAccepted 2 =
      some { id := 2, projectId := 1, vendorId := 5, amount := 100,
             status := .ACCEPTED } ∧
    lookupBid (updateBidStatus stAccepted 1 2 .REJECTED).2.1 2 =
      some { id := 2, projectId := 1, vendorId := 5, amount := 100,
             status := .REJECTED } := by
  refine ⟨rfl, rfl, rfl⟩

/-- C3 (amended: the Pending-only rule is enforced by the
vendor-initiated operations — update and withdraw — and respected by bid
creation and by the auto-rejection cascade, which only moves PENDING
bids; the manager accept/reject operation itself has no such check and
can move its target bid out of a terminal state). -/
theorem terminal_bids_vendor_immutable (st : St) (uid bidId : Nat) (amt : Int)
    (hnd : (st.bids.map Bid.id).Nodup) :
    ∀ i, (hi : i < st.bids.length) → (st.bids[i]).status ≠ BidStatus.PENDING →
      ((updateBid st uid bidId amt).2.1.bids[i]? = some st.bids[i]) ∧
      ((withdrawBid st uid bidId).2.1.bids[i]? = some st.bids[i]) ∧
      (∀ pid a, (createBid st uid pid a).2.1.bids[i]? = some st.bids[i]) ∧
      (∀ s, st.bids[i].id ≠ bidId →
        (updateBidStatus st uid bidId s).2.1.bids[i]? = some st.bids[i]) := by
  intro i hi hterm
  exact ⟨updateBid_preserves_terminal st uid bidId amt hnd i hi hterm,
    withdrawBid_preserves_terminal st uid bidId hnd i hi hterm,
    fun pid a => createBid_preserves_existing st uid pid a i hi,
    fun s hne => updateBidStatus_preserves_nontarget_nonpending st uid bidId s i hi hne hterm⟩

/-- C3 witness: in `stOpenBids`, the WITHDRAWN bid at index 1 (id 3) is
untouched by vendor 7's update and withdraw attempts on it, by a bid
creation, and by manager 1's accept of the other bid. -/
theorem terminal_bids_vendor_immutable_witness :
    ((updateBid stOpenBids 7 3 50).2.1.bids[1]? =
      some { id := 3, projectId := 1, vendorId := 7, amount := 90,
             status := .WITHDRAWN }) ∧
    ((withdrawBid stOpenBids 7 3).2.1.bids[1]? =
      some { id := 3, projectId := 1, vendorId := 7, amount := 90,
             status := .WITHDRAWN }) ∧
    ((updateBidStatus stOpenBids 1 2 .ACCEPTED).2.1.bids[1]? =
      some { id := 3, projectId := 1, vendorId := 7, amount := 90,
             status := .WITHDRAWN }) := by
  have h := terminal_bids_vendor_immutable stOpenBids 7 3 50 (by decide) 1
    (by decide) (by decide)
  have h2 := terminal_bids_vendor_immutable stOpenBids 1 2 50 (by decide) 1
    (by decide) (by decide)
  exact ⟨h.1, h.2.1, h2.2.2.2 .ACCEPTED (by decide)⟩

/-- C4.  Counterexample to the claim as stated.  In `stDraft` the only
project (id 1) is DRAFT — not Open — and there are no bids at all, yet
vendor 7's single-project read succeeds: the handler only restricts
PROPERTY_MANAGER callers and applies no status-or-bid condition to
vendors, so the read the claim says is denied is allowed. -/
theorem vendor_reads_draft_project :
    stDraft.bids = [] ∧
    (lookupProject stDraft 1).map Project.status = some .DRAFT ∧
    getProject stDraft 7 .vendor 1 =
      .ok { id := 1, propertyId := 10, managerId := 1, title := "P",
            status := .DRAFT } := by
  refine ⟨rfl, rfl, rfl⟩

/-- C4 (amended: a vendor's single-project read succeeds exactly when
the project id resolves, regardless of the project's status and of
whether the vendor has any bid on it; the Open-or-bidder restriction is
not enforced by the single-project handler). -/
theorem vendor_single_read_exists (st : St) (uid pid : Nat) :
    (∀ p, lookupProject st pid = some p →
       getProject st uid .vendor pid = .ok p) ∧
    (lookupProject st pid = none →
       getProject st uid .vendor pid = .error .projectNotFound) := by
  constructor
  · intro p hp
    unfold getProject
    rw [hp]
    dsimp only
    rw [if_neg (by simp)]
  · intro hnone
    unfold getProject
    rw [hnone]

/-- C4 witness: vendor 5 reads the DRAFT project of `stDraft`. -/
theorem vendor_single_read_exists_witness :
    getProject stDraft 5 .vendor 1 =
      .ok { id := 1, propertyId := 10, managerId := 1, title := "P",
            status := .DRAFT } :=
  (vendor_single_read_exists stDraft 5 1).1 _ rfl

/-- C5.  For a vendor with no existing bid on the project: submission
against a non-OPEN project fails with the not-accepting-bids error — the
spec's ConflictError class — leaving the store untouched; against an
OPEN project it succeeds, appends exactly one PENDING bid, and leaves
the projects table (in particular the project's status) unchanged. -/
theorem submit_bid_project_status (st : St) (uid pid : Nat) (amt : Int) (p₀ : Project)
    (hp : lookupProject st pid = some p₀)
    (hno : st.bids.find? (fun b => b.projectId == pid && b.vendorId == uid) = none) :
    (p₀.status ≠ .OPEN →
       (createBid st uid pid amt).1 = .error .projectNotAcceptingBids ∧
       specConflictError .projectNotAcceptingBids ∧
       (createBid st uid pid amt).2.1 = st) ∧
    (p₀.status = .OPEN →
       (createBid st uid pid amt).1 =
         .ok { id := st.nextId, projectId := pid, vendorId := uid,
               amount := amt, status := .PENDING } ∧
       (createBid st uid pid amt).2.1.bids =
         st.bids ++ [{ id := st.nextId, projectId := pid, vendorId := uid,
                       amount := amt, status := .PENDING }] ∧
       (createBid st uid pid amt).2.1.projects = st.projects) := by
  constructor
  · intro hnot
    unfold createBid
    rw [hp]
    dsimp only
    rw [if_pos hnot]
    exact ⟨rfl, trivial, rfl⟩
  · intro hopen
    unfold createBid
    rw [hp]
    dsimp only
    rw [if_neg (by simp [hopen])]
    rw [hno]
    exact ⟨rfl, rfl, rfl⟩

/-- C5 witness: vendor 7 is refused on the DRAFT project of `stDraft`
with the store unchanged; vendor 9 succeeds on the OPEN project of
`stOpenBids` with a new PENDING bid and the projects table unchanged. -/
theorem submit_bid_project_status_witness :
    ((createBid stDraft 7 1 5).1 = .error .projectNotAcceptingBids ∧
     specConflictError .projectNotAcceptingBids ∧
     (createBid stDraft 7 1 5).2.1 = stDraft) ∧
    ((createBid stOpenBids 9 1 70).1 =
       .ok { id := 4, projectId := 1, vendorId := 9, amount := 70,
             status := .PENDING } ∧
     (createBid stOpenBids 9 1 70).2.1.bids =
       stOpenBids.bids ++
         [{ id := 4, projectId := 1, vendorId := 9, amount := 70,
            status := .PENDING }] ∧
     (createBid stOpenBids 9 1 70).2.1.projects = stOpenBids.projects) := by
  constructor
  · exact (submit_bid_project_status stDraft 7 1 5 _ rfl rfl).1 (by decide)
  · exact (submit_bid_project_status stOpenBids 9 1 70 _ rfl rfl).2 rfl

/-- C6.  When the vendor already has a bid on the project (any status),
a second submission fails — with the duplicate error, or with the
not-accepting-bids error when the project is meanwhile no longer OPEN;
both are in the spec's ConflictError class — and the store is unchanged:
no bid row is created and the original bid is untouched. -/
theorem duplicate_bid_conflict (st : St) (uid pid : Nat) (amt : Int)
    (p₀ : Project) (b : Bid)
    (hp : lookupProject st pid = some p₀)
    (hb : b ∈ st.bids) (hbp : b.projectId = pid) (hbv : b.vendorId = uid) :
    ((createBid st uid pid amt).1 = .error .projectNotAcceptingBids ∨
     (createBid st uid pid amt).1 = .error .alreadySubmittedBid) ∧
    (∀ e, (createBid st uid pid amt).1 = .error e → specConflictError e) ∧
    (createBid st uid pid amt).2.1 = st := by
  have hfind : st.bids.find? (fun b => b.projectId == pid && b.vendorId == uid) ≠ none := by
    intro h
    have h2 := List.find?_eq_none.mp h b hb
    simp [hbp, hbv] at h2
  unfold createBid
  rw [hp]
  dsimp only
  by_cases hopen : p₀.status ≠ ProjectStatus.OPEN
  · rw [if_pos hopen]
    refine ⟨Or.inl rfl, ?_, rfl⟩
    intro e he
    injection he with h
    subst h
    exact trivial
  · rw [if_neg hopen]
    cases hfind2 : st.bids.find? (fun b => b.projectId == pid && b.vendorId == uid) with
    | none => exact absurd hfind2 hfind
    | some ex =>
      dsimp only
      refine ⟨Or.inr rfl, ?_, rfl⟩
      intro e he
      injection he with h
      subst h
      exact trivial

/-- C6 witness: vendor 5 already has bid 2 on the OPEN project of
`stOpenBids`; the resubmission is refused as a duplicate and the store
is unchanged. -/
theorem duplicate_bid_conflict_witness :
    ((createBid stOpenBids 5 1 77).1 = .error .projectNotAcceptingBids ∨
     (createBid stOpenBids 5 1 77).1 = .error .alreadySubmittedBid) ∧
    specConflictError .alreadySubmittedBid ∧
    (createBid stOpenBids 5 1 77).2.1 = stOpenBids := by
  have h := duplicate_bid_conflict stOpenBids 5 1 77
    { id := 1, propertyId := 10, managerId := 1, title := "P", status := .OPEN }
    { id := 2, projectId := 1, vendorId := 5, amount := 100, status := .PENDING }
    rfl (by decide) rfl rfl
  exact ⟨h.1, h.2.1 .alreadySubmittedBid rfl, h.2.2⟩

/-- C7.  Counterexample to the claim as stated.  The thread fetch
returns the rows as they were before its own mark-read update, so the
first fetch of the single unread message shows `read = false` while the
immediate second fetch shows `read = true`: the second fetch does not
return the same messages. -/
theorem thread_second_fetch_differs :
    (getMessagesWith stOneMessage 2 3).1 =
      [{ id := 1, senderId := 3, receiverId := 2, content := "hi",
         read := false }] ∧
    (getMessagesWith (getMessagesWith stOneMessage 2 3).2 2 3).1 =
      [{ id := 1, senderId := 3, receiverId := 2, content := "hi",
         read := true }] := by
  refine ⟨rfl, rfl⟩

/-- C7 (amended: fetching the thread marks as read exactly the messages
from the counterpart to the caller, leaving all other messages
untouched; a second immediate fetch changes no state and returns the
same rows except that the messages from the counterpart now carry
`read = true`, the first fetch having returned the pre-update rows). -/
theorem thread_read_idempotent (st : St) (u c : Nat) :
    (getMessagesWith st u c).2.messages.length = st.messages.length ∧
    (∀ i, (hi : i < st.messages.length) →
       (st.messages[i].senderId = c ∧ st.messages[i].receiverId = u →
          (getMessagesWith st u c).2.messages[i]? =
            some { st.messages[i] with read := true }) ∧
       (¬(st.messages[i].senderId = c ∧ st.messages[i].receiverId = u) →
          (getMessagesWith st u c).2.messages[i]? = some st.messages[i])) ∧
    getMessagesWith (getMessagesWith st u c).2 u c =
      ((getMessagesWith st u c).1.map fun m =>
         if m.senderId = c ∧ m.receiverId = u then { m with read := true } else m,
       (getMessagesWith st u c).2) := by
  have hmark : ∀ m : Message,
      (if m.senderId = c ∧ m.receiverId = u ∧ m.read = false
       then { m with read := true } else m) =
      (if m.senderId = c ∧ m.receiverId = u then { m with read := true } else m) := by
    intro m
    by_cases h1 : m.senderId = c ∧ m.receiverId = u
    · by_cases h2 : m.read = false
      · rw [if_pos ⟨h1.1, h1.2, h2⟩, if_pos h1]
      · rw [if_neg (fun h => h2 h.2.2), if_pos h1]
        have h3 : m.read = true := by
          cases hr : m.read
          · exact absurd hr h2
          · rfl
        obtain ⟨mid, ms, mr, mc, mread⟩ := m
        simp only at h3
        rw [h3]
    · rw [if_neg (fun h => h1 ⟨h.1, h.2.1⟩), if_neg h1]
  have hgg : ∀ m : Message,
      (if (if m.senderId = c ∧ m.receiverId = u ∧ m.read = false
            then { m with read := true } else m).senderId = c ∧
          (if m.senderId = c ∧ m.receiverId = u ∧ m.read = false
            then { m with read := true } else m).receiverId = u ∧
          (if m.senderId = c ∧ m.receiverId = u ∧ m.read = false
            then { m with read := true } else m).read = false
       then { (if m.senderId = c ∧ m.receiverId = u ∧ m.read = false
               then { m with read := true } else m) with read := true }
       else (if m.senderId = c ∧ m.receiverId = u ∧ m.read = false
             then { m with read := true } else m)) =
      (if m.senderId = c ∧ m.receiverId = u ∧ m.read = false
       then { m with read := true } else m) := by
    intro m
    by_cases h1 : m.senderId = c ∧ m.receiverId = u ∧ m.read = false
    · rw [if_pos h1]
      rw [if_neg (fun h => Bool.noConfusion h.2.2)]
    · rw [if_neg h1, if_neg h1]
  have hp : ∀ m : Message,
      (fun x : Message => decide ((x.senderId = u ∧ x.receiverId = c) ∨
          (x.senderId = c ∧ x.receiverId = u)))
        ((fun m : Message =>
            if m.senderId = c ∧ m.receiverId = u ∧ m.read = false
            then { m with read := true } else m) m) =
      (fun x : Message => decide ((x.senderId = u ∧ x.receiverId = c) ∨
          (x.senderId = c ∧ x.receiverId = u))) m := by
    intro m
    dsimp only
    split <;> rfl
  refine ⟨?_, ?_, ?_⟩
  · unfold getMessagesWith
    dsimp only
    exact List.length_map _ _
  · intro i hi
    constructor
    · intro h1
      unfold getMessagesWith
      dsimp only
      rw [List.getElem?_map, List.getElem?_eq_getElem hi, Option.map_some']
      rw [hmark st.messages[i], if_pos h1]
    · intro h1
      unfold getMessagesWith
      dsimp only
      rw [List.getElem?_map, List.getElem?_eq_getElem hi, Option.map_some']
      rw [hmark st.messages[i], if_neg h1]
  · unfold getMessagesWith
    dsimp only
    congr 1
    · rw [filter_map_of_pres _ _ _ hp]
      exact List.map_congr_left fun m _ => hmark m
    · congr 1
      exact map_idem_of_pointwise _ _ hgg

/-- C7 witness: the idempotence theorem applied to `stOneMessage` for
caller 2 and counterpart 3. -/
theorem thread_read_idempotent_witness :
    (getMessagesWith stOneMessage 2 3).2.messages.length =
      stOneMessage.messages.length ∧
    (getMessagesWith stOneMessage 2 3).2.messages[0]? =
      some { id := 1, senderId := 3, receiverId := 2, content := "hi",
             read := true } ∧
    getMessagesWith (getMessagesWith stOneMessage 2 3).2 2 3 =
      ((getMessagesWith stOneMessage 2 3).1.map fun m =>
         if m.senderId = 3 ∧ m.receiverId = 2 then { m with read := true } else m,
       (getMessagesWith stOneMessage 2 3).2) := by
  have h := thread_read_idempotent stOneMessage 2 3
  exact ⟨h.1, (h.2.1 0 (by decide)).1 (by decide), h.2.2⟩

/-- Helper: the storage phase of an upload never leaves a payload at a
locator without a matching metadata record: on the upsert-clash and
db-failure paths the storage either is untouched or returns to its
original contents, and on success the new locator has its document
row. -/
theorem uploadStorePhase_no_orphan (st : St) (uid : Nat) (pj bi : Option Nat)
    (f : String) (d : Bool) :
    ∀ loc ∈ (uploadStorePhase st uid pj bi f d).2.1.storage,
      loc ∈ st.storage ∨
      ∃ doc ∈ (uploadStorePhase st uid pj bi f d).2.1.documents,
        doc.storagePath = loc := by
  intro loc hloc
  unfold uploadStorePhase at hloc ⊢
  by_cases hmem : storagePathFor uid pj bi f ∈ st.storage
  · rw [if_pos hmem] at hloc ⊢
    exact Or.inl hloc
  · rw [if_neg hmem] at hloc ⊢
    cases d with
    | true =>
      rw [if_pos rfl] at hloc ⊢
      have h2 := List.mem_filter.mp hloc
      rcases List.mem_append.mp h2.1 with h3 | h3
      · exact Or.inl h3
      · exact absurd (List.mem_singleton.mp h3) (bne_iff_ne.mp h2.2)
    | false =>
      rw [if_neg (fun h => Bool.noConfusion h)] at hloc ⊢
      rcases List.mem_append.mp hloc with h3 | h3
      · exact Or.inl h3
      · exact Or.inr ⟨⟨st.nextId, pj, bi, uid, storagePathFor uid pj bi f⟩,
          List.mem_append_right _ (List.mem_singleton.mpr rfl),
          (List.mem_singleton.mp h3).symm⟩

/-- Helper: the no-orphan property lifted through the upload handler's
authorization gate. -/
theorem uploadDocument_no_orphan (st : St) (uid : Nat) (pj bi : Option Nat)
    (f : String) (d : Bool) :
    ∀ loc ∈ (uploadDocument st uid pj bi f d).2.1.storage,
      loc ∈ st.storage ∨
      ∃ doc ∈ (uploadDocument st uid pj bi f d).2.1.documents,
        doc.storagePath = loc := by
  unfold uploadDocument
  dsimp only
  split
  · exact fun loc h => Or.inl h
  · split
    · exact fun loc h => Or.inl h
    · split
      · exact fun loc h => Or.inl h
      · exact uploadStorePhase_no_orphan st uid pj bi f d

/-- Helper: the fully-authorized db-failure upload written out: payload
stored, metadata insert fails, payload removed again, error returned. -/
theorem uploadDocument_dbfail_eq (st : St) (uid pid : Nat) (p₀ : Project)
    (fn : String)
    (hp : lookupProject st pid = some p₀) (hm : p₀.managerId = uid)
    (hfresh : storagePathFor uid (some pid) none fn ∉ st.storage) :
    uploadDocument st uid (some pid) none fn true =
      (.error .failedToCreateDocument,
       { st with storage :=
           ((st.storage ++ [storagePathFor uid (some pid) none fn]).filter
             (fun l => l != storagePathFor uid (some pid) none fn)) },
       [.storePut (storagePathFor uid (some pid) none fn),
        .storeRemove (storagePathFor uid (some pid) none fn)]) := by
  unfold uploadDocument
  rw [if_neg (fun h => Option.noConfusion h.1)]
  dsimp only
  rw [hp]
  dsimp only
  rw [hm]
  rw [if_neg (by simp)]
  rw [if_neg (fun h => Bool.noConfusion h)]
  unfold uploadStorePhase
  rw [if_neg hfresh]
  rw [if_pos rfl]

/-- C8.  When the payload has been stored and the metadata insert then
fails, the handler removes the payload before returning its error (the
effect trace is exactly put-then-remove), so storage and documents are
as before; moreover, on every path of the upload handler, any locator
holding a payload afterwards either held one before or has a matching
document record. -/
theorem upload_cleanup_no_orphan (st : St) (uid pid : Nat) (p₀ : Project)
    (fn : String)
    (hp : lookupProject st pid = some p₀) (hm : p₀.managerId = uid)
    (hfresh : storagePathFor uid (some pid) none fn ∉ st.storage) :
    ((uploadDocument st uid (some pid) none fn true).1 =
       .error .failedToCreateDocument ∧
     (uploadDocument st uid (some pid) none fn true).2.1.storage = st.storage ∧
     (uploadDocument st uid (some pid) none fn true).2.1.documents =
       st.documents ∧
     (uploadDocument st uid (some pid) none fn true).2.2 =
       [.storePut (storagePathFor uid (some pid) none fn),
        .storeRemove (storagePathFor uid (some pid) none fn)]) ∧
    (∀ pj bi f d, ∀ loc ∈ (uploadDocument st uid pj bi f d).2.1.storage,
        loc ∈ st.storage ∨
        ∃ doc ∈ (uploadDocument st uid pj bi f d).2.1.documents,
          doc.storagePath = loc) := by
  constructor
  · rw [uploadDocument_dbfail_eq st uid pid p₀ fn hp hm hfresh]
    refine ⟨rfl, ?_, rfl, rfl⟩
    show (st.storage ++ [storagePathFor uid (some pid) none fn]).filter
        (fun l => l != storagePathFor uid (some pid) none fn) = st.storage
    rw [List.filter_append]
    have h1 : ([storagePathFor uid (some pid) none fn].filter
        fun l => l != storagePathFor uid (some pid) none fn) = [] := by simp
    rw [h1, List.append_nil]
    exact List.filter_eq_self.mpr fun a ha =>
      bne_iff_ne.mpr fun he => hfresh (he ▸ ha)
  · exact fun pj bi f d => uploadDocument_no_orphan st uid pj bi f d

/-- C8 witness: manager 1 uploads against project 1 of `stDraft` with a
failing metadata insert; the payload is stored and removed again and the
store is unchanged. -/
theorem upload_cleanup_no_orphan_witness :
    (uploadDocument stDraft 1 (some 1) none "f.pdf" true).1 =
      .error .failedToCreateDocument ∧
    (uploadDocument stDraft 1 (some 1) none "f.pdf" true).2.1.storage =
      stDraft.storage ∧
    (uploadDocument stDraft 1 (some 1) none "f.pdf" true).2.1.documents =
      stDraft.documents ∧
    (uploadDocument stDraft 1 (some 1) none "f.pdf" true).2.2 =
      [.storePut (storagePathFor 1 (some 1) none "f.pdf"),
       .storeRemove (storagePathFor 1 (some 1) none "f.pdf")] := by
  have h := upload_cleanup_no_orphan stDraft 1 1
    { id := 1, propertyId := 10, managerId := 1, title := "P", status := .DRAFT }
    "f.pdf" rfl rfl (by decide)
  exact h.1

/-- C9.  For the three notification-producing handlers (bid creation,
bid accept/reject, message send): on every path, every notification push
in the effect trace is preceded in the trace by the persisted row for
the same recipient and type tag, and that row exists in the resulting
store. -/
theorem notify_persist_before_push (st : St) (a b : Nat) (amt : Int)
    (s : BidStatus) (content : String) :
    (pushesAfterPersists [] (createBid st a b amt).2.2 = true ∧
     ∀ u t, Effect.pushNotification u t ∈ (createBid st a b amt).2.2 →
       hasStoredNotification (createBid st a b amt).2.1 u t = true) ∧
    (pushesAfterPersists [] (updateBidStatus st a b s).2.2 = true ∧
     ∀ u t, Effect.pushNotification u t ∈ (updateBidStatus st a b s).2.2 →
       hasStoredNotification (updateBidStatus st a b s).2.1 u t = true) ∧
    (pushesAfterPersists [] (sendMessage st a b content).2.2 = true ∧
     ∀ u t, Effect.pushNotification u t ∈ (sendMessage st a b content).2.2 →
       hasStoredNotification (sendMessage st a b content).2.1 u t = true) := by
  refine ⟨?_, ?_, ?_⟩
  · unfold createBid
    dsimp only
    repeat' split
    all_goals refine ⟨by simp [pushesAfterPersists, hasPersist], ?_⟩
    all_goals intro u t hmem
    all_goals simp at hmem
    all_goals obtain ⟨hu, ht⟩ := hmem
    all_goals subst hu
    all_goals subst ht
    all_goals simp [hasStoredNotification]
  · unfold updateBidStatus
    dsimp only
    repeat' split
    all_goals refine ⟨by simp [pushesAfterPersists, hasPersist], ?_⟩
    all_goals intro u t hmem
    all_goals simp at hmem
    all_goals obtain ⟨hu, ht⟩ := hmem
    all_goals subst hu
    all_goals subst ht
    all_goals simp [hasStoredNotification]
  · unfold sendMessage
    dsimp only
    repeat' split
    all_goals refine ⟨by simp [pushesAfterPersists, hasPersist], ?_⟩
    all_goals intro u t hmem
    all_goals simp at hmem
    all_goals obtain ⟨hu, ht⟩ := hmem
    all_goals subst hu
    all_goals subst ht
    all_goals simp [hasStoredNotification]

/-- C9 witness: sending a message to registered user 2 yields the
persist-then-push trace and the stored row. -/
theorem notify_persist_before_push_witness :
    pushesAfterPersists [] (sendMessage stUsers 1 2 "hi").2.2 = true ∧
    hasStoredNotification (sendMessage stUsers 1 2 "hi").2.1 2 "message" = true := by
  have h := notify_persist_before_push stUsers 1 2 0 .ACCEPTED "hi"
  exact ⟨h.2.2.1, h.2.2.2 2 "message" (by decide)⟩

/-- C10.  Marking a notification read and deleting a notification are
recipient-only: when the row exists and the caller is not its recipient,
both return access denied with the store untouched; when the caller is
the recipient, the mark sets exactly that row's read flag and the delete
removes exactly that row. -/
theorem notification_recipient_only (st : St) (uid nid : Nat) (n₀ : Notification)
    (h : lookupNotification st nid = some n₀) :
    (n₀.userId ≠ uid →
       markNotificationRead st uid nid = (.error .accessDenied, st, []) ∧
       deleteNotification st uid nid = (.error .accessDenied, st, [])) ∧
    (n₀.userId = uid →
       (markNotificationRead st uid nid).1 = .ok { n₀ with read := true } ∧
       lookupNotification (markNotificationRead st uid nid).2.1 nid =
         some { n₀ with read := true } ∧
       (∀ i, (hi : i < st.notifications.length) → st.notifications[i].id ≠ nid →
          (markNotificationRead st uid nid).2.1.notifications[i]? =
            some st.notifications[i]) ∧
       (deleteNotification st uid nid).1 = .ok () ∧
       lookupNotification (deleteNotification st uid nid).2.1 nid = none ∧
       (∀ n ∈ (deleteNotification st uid nid).2.1.notifications,
          n ∈ st.notifications ∧ n.id ≠ nid) ∧
       (∀ n ∈ st.notifications, n.id ≠ nid →
          n ∈ (deleteNotification st uid nid).2.1.notifications)) := by
  have hid : n₀.id = nid := by
    have h2 := h
    unfold lookupNotification at h2
    simpa using List.find?_some h2
  constructor
  · intro hne
    unfold markNotificationRead deleteNotification
    rw [h]
    dsimp only
    rw [if_pos hne, if_pos hne]
    exact ⟨rfl, rfl⟩
  · intro heq
    have hnotne : ¬ n₀.userId ≠ uid := fun hx => hx heq
    refine ⟨?_, ?_, ?_, ?_, ?_, ?_, ?_⟩
    · unfold markNotificationRead
      rw [h]
      dsimp only
      rw [if_neg hnotne]
    · unfold markNotificationRead
      rw [h]
      dsimp only
      rw [if_neg hnotne]
      unfold lookupNotification
      dsimp only
      rw [find?_map_of_pres _ _ _ (fun a => by split <;> rfl)]
      unfold lookupNotification at h
      rw [h, Option.map_some']
      simp [hid]
    · intro i hi hne
      unfold markNotificationRead
      rw [h]
      dsimp only
      rw [if_neg hnotne]
      dsimp only
      rw [List.getElem?_map, List.getElem?_eq_getElem hi, Option.map_some']
      rw [if_neg hne]
    · unfold deleteNotification
      rw [h]
      dsimp only
      rw [if_neg hnotne]
    · unfold deleteNotification
      rw [h]
      dsimp only
      rw [if_neg hnotne]
      unfold lookupNotification
      dsimp only
      refine List.find?_eq_none.mpr fun n hn => ?_
      have h2 := (List.mem_filter.mp hn).2
      simp only [bne_iff_ne, ne_eq] at h2
      simpa using h2
    · intro n hn
      unfold deleteNotification at hn
      rw [h] at hn
      dsimp only at hn
      rw [if_neg hnotne] at hn
      dsimp only at hn
      have h2 := List.mem_filter.mp hn
      exact ⟨h2.1, by simpa [bne_iff_ne] using h2.2⟩
    · intro n hn hne
      unfold deleteNotification
      rw [h]
      dsimp only
      rw [if_neg hnotne]
      dsimp only
      exact List.mem_filter.mpr ⟨hn, by simpa [bne_iff_ne] using hne⟩

/-- C10 witness: user 9 is refused on notification 1 of
`stOneNotification` with the store untouched; recipient 2 marks it read
and deletes it. -/
theorem notification_recipient_only_witness :
    (markNotificationRead stOneNotification 9 1 =
       (.error .accessDenied, stOneNotification, []) ∧
     deleteNotification stOneNotification 9 1 =
       (.error .accessDenied, stOneNotification, [])) ∧
    (markNotificationRead stOneNotification 2 1).1 =
      .ok { id := 1, userId := 2, title := "t", message := "m",
            type := "bid_received", link := "", read := true } ∧
    lookupNotification (deleteNotification stOneNotification 2 1).2.1 1 = none := by
  have h1 := notification_recipient_only stOneNotification 9 1
    { id := 1, userId := 2, title := "t", message := "m",
      type := "bid_received", link := "", read := false } rfl
  have h2 := notification_recipient_only stOneNotification 2 1
    { id := 1, userId := 2, title := "t", message := "m",
      type := "bid_received", link := "", read := false } rfl
  exact ⟨h1.1 (by decide), (h2.2 rfl).1, (h2.2 rfl).2.2.2.2.1⟩

end VendorBidding
